import Mathlib

/-!
# Verification of the discogstagger release-to-track mapping core

Shallow embedding of `src/discogstagger/discogsalbum.py` (class
`DiscogsAlbum`): the release data model, the name-normalization helpers
(`clean_duplicate_handling`, `clean_name`), the position parser
(`disc_and_track_no`), the album-level accessors (`year`, `disctotal`,
`sort_artist`, `is_compilation`, `tracktotal_on_disc`) and the two
tracklist builders (`tracks`, `discs_and_tracks`).

Python exceptions are modelled with `Except PyError`; machine strings are
Lean `String` (lists of characters); Python `int(...)` is `pyInt`.  The
regular expressions of the source are small and fixed, and are embedded
directly as character-list scanners with the exact semantics of the
patterns involved (`"\s\(\d+\)"` for the duplicate suffix,
`"(.*),\sThe$"` for the sort rewrite, `"\d\d\d\d"` anchored by
`re.match` for the year); ASCII semantics of `\s`/`\d` are used, which is
what the catalog data contains.
-/

deriving instance DecidableEq for Except

namespace DT

/-- Python exception kinds that the embedded code can raise. -/
inductive PyError where
  | attributeError
  | indexError
  | valueError
  | keyError
deriving DecidableEq

/-- An artist record: both the client objects (`release.artists`, entries
with a `.name`) and the raw dicts (`release.data["artists"]`, dicts with a
`"name"` key) expose just the name to the embedded code. -/
structure Artist where
  name : String
deriving DecidableEq

/-- One entry of `release.data["formats"]`: the quantity string `"qty"`
and the optional `"descriptions"` list (`none` models the key being
absent, which the source tests with `"descriptions" in format`). -/
structure Format where
  qty : String
  descriptions : Option (List String)
deriving DecidableEq

/-- The slice of the `release.data` dict used by the embedded operations
(`"artists"`, `"formats"`, `"year"`).  `year` is the value after Python's
`str(...)` coercion; `none` models the `"year"` key being absent (reading
it raises `KeyError`).  Keys not read by any embedded operation
(`genres`, `styles`, `country`, `labels`, `images`, `master_id`,
`notes`) are omitted. -/
structure ReleaseData where
  artists : List Artist
  formats : List Format
  year : Option String
deriving DecidableEq

/-- One raw tracklist entry: the `"type"` string (field `ty`), title,
free-form position token, duration, and the per-track credited artists.
`artists` is modelled as a possibly-empty list (an entry with no credits
has `[]`, on which `t["artists"][0]` raises `IndexError`). -/
structure TracklistEntry where
  ty : String
  title : String
  position : String
  duration : String
  artists : List Artist
deriving DecidableEq

/-- The immutable release snapshot a `DiscogsAlbum` wraps: the client
artist objects (`release.artists`), the raw data dict (`release.data`)
and the raw tracklist (`release.tracklist`). -/
structure Release where
  artists : List Artist
  data : ReleaseData
  tracklist : List TracklistEntry
deriving DecidableEq

/-- Modelled from the spec: `TrackContainer`, the per-track record the
`tracks` property populates.  The class itself is referenced in
`discogsalbum.py` but defined outside `src/`; per the spec's Track data
model it is a plain record of the fields the builder assigns. -/
structure TrackContainer where
  position : Nat
  tracknumber : Int
  discnumber : Int
  discsubtitle : Option String
  sortartist : String
  artist : List String
  title : String
deriving DecidableEq

/-- Modelled from the spec: `Track` from the `album` module (imported by
`discogsalbum.py` but not under `src/`), as populated by
`discs_and_tracks`; per the spec's Track data model it is a plain record
of the fields the builder assigns (the constructor stores the position,
artist sequence and title, and the builder then assigns every field
explicitly). -/
structure Track where
  position : Nat
  tracknumber : Int
  discnumber : Int
  discsubtitle : Option String
  sortartist : String
  artist : List String
  title : String
deriving DecidableEq

/-- Result dict of `disc_and_track_no`: the `"tracknumber"` and
`"discnumber"` substrings. -/
structure PosParts where
  tracknumber : String
  discnumber : String
deriving DecidableEq

/-! ## String primitives -/

/-- ASCII semantics of the regex class `\s`: space, tab, newline,
carriage return, vertical tab, form feed (Python 2 `re` on `str`). -/
def pyIsSpace (c : Char) : Bool :=
  c = ' ' || c = '\t' || c = '\n' || c = '\r' || c = '\x0b' || c = '\x0c'

/-- Whitespace stripping done by Python `int(...)` before parsing. -/
def pyStrip (l : List Char) : List Char :=
  ((l.dropWhile pyIsSpace).reverse.dropWhile pyIsSpace).reverse

/-- Numeric value of a list of decimal digit characters. -/
def digitsVal (l : List Char) : Nat :=
  l.foldl (fun a c => a * 10 + (c.toNat - '0'.toNat)) 0

/-- Python `int(s)` on a string: strip whitespace, optional sign, then a
nonempty run of decimal digits; anything else raises `ValueError`. -/
def pyInt (s : String) : Except PyError Int :=
  match pyStrip s.data with
  | '-' :: ds =>
      if !ds.isEmpty && ds.all Char.isDigit then .ok (-(digitsVal ds : Int))
      else .error .valueError
  | '+' :: ds =>
      if !ds.isEmpty && ds.all Char.isDigit then .ok (digitsVal ds)
      else .error .valueError
  | ds =>
      if !ds.isEmpty && ds.all Char.isDigit then .ok (digitsVal ds)
      else .error .valueError

/-! ## NameNormalizer: `clean_duplicate_handling` and `clean_name`

`clean_duplicate_handling` is `re.sub("\s\(\d+\)", "", target)`.  The
pattern matches a whitespace character, `'('`, a maximal nonempty run of
digits, `')'` (the run is maximal because after backtracking `\)` can
never match a digit).  `re.sub` scans left to right, removing
non-overlapping matches and resuming the scan after each removed match.
-/

/-- Attempt to match the pattern `\s\(\d+\)` at the head of the list:
a whitespace character, `'('`, a nonempty digit run, `')'`; on success
return the remainder after the match (the tail of what is left after the
digit run). -/
def matchAt : List Char → Option (List Char)
  | c0 :: c1 :: rest =>
      if pyIsSpace c0 && c1 = '(' && !(rest.takeWhile Char.isDigit).isEmpty
          && (rest.dropWhile Char.isDigit).head? = some ')' then
        some (rest.dropWhile Char.isDigit).tail
      else none
  | _ => none

/-- The `re.sub` scan, with explicit fuel (one unit per scan position;
`fuel = l.length` always suffices because each step consumes at least one
character, see `stripDupFuel_eq_of_le`). -/
def stripDupFuel : Nat → List Char → List Char
  | _, [] => []
  | 0, l => l
  | fuel + 1, c :: cs =>
      match matchAt (c :: cs) with
      | some tail => stripDupFuel fuel tail
      | none => c :: stripDupFuel fuel cs

/-- `re.sub("\s\(\d+\)", "", ·)` on a character list. -/
def stripDup (l : List Char) : List Char :=
  stripDupFuel l.length l

/-- Source `clean_duplicate_handling`: remove discogs duplicate handling,
e.g. `"John (1)"` becomes `"John"`. -/
def clean_duplicate_handling (s : String) : String :=
  ⟨stripDup s.data⟩

/-- Whether the pattern `\s\(\d+\)` matches anywhere in the list. -/
def hasMatch : List Char → Bool
  | [] => false
  | c :: cs => (matchAt (c :: cs)).isSome || hasMatch cs

/-- The segment of a list after its last newline (the whole list when it
contains none); this is what `(.*)` can span, since `.` does not match a
newline. -/
def afterLastNL (l : List Char) : List Char :=
  (l.reverse.takeWhile (fun c => c ≠ '\n')).reverse

/-- Search for `"(.*),\sThe$"` and return `group(1)` on success.  The
match must end at the end of the string (or just before one final
newline, which Python's `$` also accepts), so the literal tail
`,\sThe` occupies the last five characters of the effective string; with
the leftmost match start and greedy `(.*)`, `group(1)` is everything
before that tail and after the last newline. -/
def theGroup (l : List Char) : Option (List Char) :=
  let m := match l.getLast? with
           | some '\n' => l.dropLast
           | _ => l
  match m.reverse with
  | 'e' :: 'h' :: 'T' :: w :: ',' :: preRev =>
      if pyIsSpace w then some (afterLastNL preRev.reverse) else none
  | _ => none

/-- Source `clean_name`: strip the duplicate suffix, then rewrite
`"<X>, The"` to `"The <X>"` (the single rule of the `groups` dict). -/
def clean_name (s : String) : String :=
  let t := clean_duplicate_handling s
  match theGroup t.data with
  | some g1 => ⟨['T', 'h', 'e', ' '] ++ g1⟩
  | none => t

/-! ## PositionParser: `disc_and_track_no` -/

/-- Python `str.find` for a single character: index of the first
occurrence, `none` for `-1`. -/
def pyFind (c : Char) : List Char → Option Nat
  | [] => none
  | x :: xs => if x = c then some 0 else (pyFind c xs).map (· + 1)

/-- Source `disc_and_track_no`: find the first `'-'`, else the first
`'.'`, else use index 0; `tracknumber` is everything after the split
index, `discnumber` everything before it. -/
def disc_and_track_no (position : String) : PosParts :=
  let l := position.data
  let idx : Nat :=
    match pyFind '-' l with
    | some i => i
    | none =>
        match pyFind '.' l with
        | some i => i
        | none => 0
  { tracknumber := ⟨l.drop (idx + 1)⟩, discnumber := ⟨l.take idx⟩ }

/-! ## ReleaseModel accessors -/

/-- `re.match("\d\d\d\d", s)`: the first four characters when they are
all digits (`re.match` anchors at the start), else no match. -/
def matchFourDigits (s : String) : Option String :=
  match s.data with
  | a :: b :: c :: d :: _ =>
      if a.isDigit && b.isDigit && c.isDigit && d.isDigit then
        some ⟨[a, b, c, d]⟩
      else none
  | _ => none

/-- Source `year` property: `good_year.match(str(data["year"])).group(0)`
inside `try ... except IndexError: return "1900"`.  A missing `"year"`
key raises `KeyError`; when the pattern does not match, `.match` returns
`None` and `None.group(0)` raises `AttributeError` — neither is an
`IndexError`, so the `except` clause never fires. -/
def year (r : Release) : Except PyError String :=
  match r.data.year with
  | none => .error .keyError
  | some y =>
      match matchFourDigits y with
      | some m => .ok m
      | none => .error .attributeError

/-- Source `disctotal` property:
`int(self.release.data["formats"][0]["qty"])`. -/
def disctotal (r : Release) : Except PyError Int :=
  match r.data.formats with
  | [] => .error .indexError
  | f :: _ => pyInt f.qty

/-- Source `sort_artist` method:
`clean_duplicate_handling(artist_data[0].name)`. -/
def sort_artist (artist_data : List Artist) : Except PyError String :=
  match artist_data with
  | [] => .error .indexError
  | a :: _ => .ok (clean_duplicate_handling a.name)

/-- Source `artists` property: each artist name normalized with
`clean_name`. -/
def artists (r : Release) : List String :=
  r.artists.map (fun a => clean_name a.name)

/-- Source `is_compilation` property: first raw artist name equal to
`"Various"`, or some format carrying a description equal to
`"compilation"`. -/
def is_compilation (r : Release) : Except PyError Bool :=
  match r.data.artists with
  | [] => .error .indexError
  | a :: _ =>
      if a.name = "Various" then .ok true
      else
        .ok (r.data.formats.any fun f =>
          match f.descriptions with
          | some ds => ds.any (fun d => d == "compilation")
          | none => false)

/-- Source `tracktotal_on_disc`: reads `self.discs`, an attribute the
constructor (`__init__`, which only sets `self.release`) never creates
and that no successful code path ever creates (the only assignment, in
`tracks`, itself raises `AttributeError` when reading `self.discs` for
the subscript store), so the lookup always raises `AttributeError`. -/
def tracktotal_on_disc (_r : Release) (_discnumber : Int) : Except PyError Int :=
  .error .attributeError

/-! ## TrackListBuilder: `tracks` and `discs_and_tracks`

Both properties iterate `enumerate(x for x in tracklist if x["type"] ==
"Track")` — the enumerate index `i` counts every type-filtered entry,
including the pseudo-subtitle entries that are later skipped with
`continue`.  Per entry, in source order: the per-track artist resolution
(`t["artists"][0]` with `except IndexError: artist = self.artist`, and
`self.artist` is a property that exists only as a comment, so the
fallback itself raises `AttributeError`); the pseudo-subtitle test
`t["title"] and not t["position"] and not t["duration"]`; then the
disc/track resolution guarded by `self.disctotal > 1`.  `tracks`
additionally executes `self.discs[int(track.discnumber)] =
int(track.tracknumber)` — reading `self.discs`, which `__init__` never
creates, raises `AttributeError`.  `discs_and_tracks` has that line
commented out and appends the built Track instead. -/

/-- The pseudo-subtitle test of lines 202 and 253: truthy title, falsy
position and duration. -/
def isPseudo (t : TracklistEntry) : Bool :=
  !(t.title == "") && t.position == "" && t.duration == ""

/-- The generator filter: entries whose `"type"` equals `"Track"`. -/
def filteredEntries (r : Release) : List TracklistEntry :=
  r.tracklist.filter (fun t => t.ty == "Track")

/-- The disc/track-number resolution shared by both builders (lines
208–214 and 259–265): when `disctotal > 1`, parse both halves of
`disc_and_track_no` (tracknumber first); otherwise parse the whole
position token as the tracknumber and fix the discnumber to 1. -/
def parseTrackNums (r : Release) (t : TracklistEntry) : Except PyError (Int × Int) :=
  match disctotal r with
  | .error e => .error e
  | .ok dt =>
      if 1 < dt then
        match pyInt (disc_and_track_no t.position).tracknumber with
        | .error e => .error e
        | .ok tn =>
            match pyInt (disc_and_track_no t.position).discnumber with
            | .error e => .error e
            | .ok dn => .ok (tn, dn)
      else
        match pyInt t.position with
        | .error e => .error e
        | .ok tn => .ok (tn, 1)

/-- Loop body of the `tracks` property over the type-filtered entries,
carrying the enumerate index and the pending disc subtitle.  Every
non-pseudo entry that survives artist resolution and number parsing then
executes the `self.discs[...]` store, whose attribute read raises
`AttributeError`, so no entry is ever appended. -/
def tracksLoop (r : Release) : Option String → Nat → List TracklistEntry →
    Except PyError (List TrackContainer)
  | _, _, [] => .ok []
  | _dsub, i, t :: rest =>
      match t.artists with
      | [] => .error .attributeError
      | _ :: _ =>
          if isPseudo t then
            tracksLoop r (some t.title) (i + 1) rest
          else
            match parseTrackNums r t with
            | .error e => .error e
            | .ok _ => .error .attributeError

/-- Source `tracks` property. -/
def tracks (r : Release) : Except PyError (List TrackContainer) :=
  tracksLoop r none 0 (filteredEntries r)

/-- Loop body of the `discs_and_tracks` property: identical to
`tracksLoop` except that the `self.discs[...]` line is commented out, so
the built Track (position `i + 1`, the parsed numbers, the pending
subtitle if any, `clean_name` of the first per-track artist as
sortartist, all per-track artist names, the entry's title) is appended
and iteration continues. -/
def datLoop (r : Release) : Option String → Nat → List TracklistEntry →
    Except PyError (List Track)
  | _, _, [] => .ok []
  | dsub, i, t :: rest =>
      match t.artists with
      | [] => .error .attributeError
      | a :: _ =>
          if isPseudo t then
            datLoop r (some t.title) (i + 1) rest
          else
            match parseTrackNums r t with
            | .error e => .error e
            | .ok (tn, dn) =>
                match datLoop r dsub (i + 1) rest with
                | .error e => .error e
                | .ok l =>
                    .ok ({ position := i + 1, tracknumber := tn,
                           discnumber := dn, discsubtitle := dsub,
                           sortartist := clean_name a.name,
                           artist := t.artists.map Artist.name,
                           title := t.title } :: l)

/-- Source `discs_and_tracks` property. -/
def discs_and_tracks (r : Release) : Except PyError (List Track) :=
  datLoop r none 0 (filteredEntries r)

/-! ## Specification-side helpers for the amended claims -/

/-- The position values the builders emit: one value `i + 1` per
non-pseudo entry, with the enumerate counter `i` advancing on every
entry, pseudo or not. -/
def specPositions : Nat → List TracklistEntry → List Nat
  | _, [] => []
  | i, t :: ts =>
      if isPseudo t then specPositions (i + 1) ts
      else (i + 1) :: specPositions (i + 1) ts

/-- The disc subtitles the builders emit: each non-pseudo entry carries
the title of the last pseudo-subtitle entry before it (or the inherited
pending value), never cleared, only replaced. -/
def specSubs : Option String → List TracklistEntry → List (Option String)
  | _, [] => []
  | d, t :: ts =>
      if isPseudo t then specSubs (some t.title) ts
      else d :: specSubs d ts

/-! ## Concrete catalog snapshots used as counterexamples and witnesses -/

/-- An unremarkable artist used to populate concrete snapshots. -/
def artX : Artist := ⟨"X"⟩

/-- A pseudo-subtitle tracklist entry: type `"Track"`, non-empty title,
empty position and duration. -/
def entSub : TracklistEntry := ⟨"Track", "Disc One", "", "", [artX]⟩

/-- Single-disc release whose tracklist is a pseudo-subtitle entry
followed by one real track at position `"1"`. -/
def relC1 : Release :=
  ⟨[artX], ⟨[artX], [⟨"1", none⟩], some "2000"⟩,
   [entSub, ⟨"Track", "A", "1", "3:00", [artX]⟩]⟩

/-- The one Track `discs_and_tracks` emits for `relC1`: its position is
2, not 1, because the pseudo-subtitle entry consumed enumerate index 0. -/
def trC1 : Track := ⟨2, 1, 1, some "Disc One", "X", ["X"], "A"⟩

/-- Single-disc release with one real track whose position token `"A1"`
does not parse as an integer. -/
def relC2 : Release :=
  ⟨[artX], ⟨[artX], [⟨"1", none⟩], some "2000"⟩,
   [⟨"Track", "A", "A1", "3:00", [artX]⟩]⟩

/-- Single-disc release with one well-formed real track (parseable
position, non-empty artist list). -/
def relC2w : Release :=
  ⟨[artX], ⟨[artX], [⟨"1", none⟩], some "2000"⟩,
   [⟨"Track", "A", "1", "3:00", [artX]⟩]⟩

/-- Single-disc release whose one real track has an empty per-track
credited-artist list. -/
def relC3 : Release :=
  ⟨[artX], ⟨[artX], [⟨"1", none⟩], some "2000"⟩,
   [⟨"Track", "A", "1", "3:00", []⟩]⟩

/-- Release whose catalog year field holds no 4-digit run. -/
def relC4a : Release :=
  ⟨[artX], ⟨[artX], [⟨"1", none⟩], some "abcd"⟩, []⟩

/-- Release whose catalog year field is absent. -/
def relC4b : Release :=
  ⟨[artX], ⟨[artX], [⟨"1", none⟩], none⟩, []⟩

/-- Two-disc release: a pseudo-subtitle entry, then one track on disc 1
and one on disc 2. -/
def relC8 : Release :=
  ⟨[artX], ⟨[artX], [⟨"2", none⟩], some "2000"⟩,
   [entSub, ⟨"Track", "A", "1-1", "3:00", [artX]⟩,
    ⟨"Track", "B", "2-1", "3:00", [artX]⟩]⟩

/-- The two Tracks `discs_and_tracks` emits for `relC8`; both carry the
subtitle `"Disc One"` although the second lies on disc 2. -/
def trC8a : Track := ⟨2, 1, 1, some "Disc One", "X", ["X"], "A"⟩

/-- Second emitted Track of `relC8` (disc 2, subtitle still carried). -/
def trC8b : Track := ⟨3, 1, 2, some "Disc One", "X", ["X"], "B"⟩

/-- Release credited to `"Various Artists"` (not the sentinel
`"Various"`) with no `"compilation"` format descriptor. -/
def relC9 : Release :=
  ⟨[⟨"Various Artists"⟩], ⟨[⟨"Various Artists"⟩], [⟨"1", some ["album"]⟩], some "2000"⟩, []⟩

/-- Release whose first physical format declares quantity `"0"`. -/
def relC10 : Release :=
  ⟨[artX], ⟨[artX], [⟨"0", none⟩], some "2000"⟩, []⟩

/-- Two-disc release whose tracklist holds only a pseudo-subtitle entry,
so `tracks` runs to completion and returns the empty list. -/
def relC10w : Release :=
  ⟨[artX], ⟨[artX], [⟨"2", none⟩], some "2000"⟩, [entSub]⟩

end DT



/-! ## Helper lemmas -/

namespace DT

/-- Dropping a prefix cannot lengthen a list. -/
theorem length_dropWhile_le (p : Char → Bool) :
    ∀ l : List Char, (l.dropWhile p).length ≤ l.length := by
  intro l
  induction l with
  | nil => simp
  | cons c cs ih =>
      by_cases h : p c
      · rw [List.dropWhile_cons, if_pos h]
        exact le_trans ih (Nat.le_succ _)
      · rw [List.dropWhile_cons, if_neg h]

/-- A successful `matchAt` consumes at least one character. -/
theorem matchAt_length {l tail : List Char} (h : matchAt l = some tail) :
    tail.length < l.length := by
  match l with
  | [] => simp [matchAt] at h
  | [c] => simp [matchAt] at h
  | c0 :: c1 :: rest =>
      simp only [matchAt] at h
      split at h
      · simp only [Option.some.injEq] at h
        subst h
        have h1 : (rest.dropWhile Char.isDigit).length ≤ rest.length :=
          length_dropWhile_le _ _
        have h2 : ((rest.dropWhile Char.isDigit).tail).length
            = (rest.dropWhile Char.isDigit).length - 1 := List.length_tail _
        simp only [List.length_cons]
        omega
      · exact absurd h (by simp)

/-- The fuel of `stripDupFuel` is irrelevant as soon as it covers the
length of the list, so `stripDup`'s choice `fuel = l.length` computes the
full `re.sub` scan. -/
theorem stripDupFuel_eq_of_le :
    ∀ (f1 f2 : Nat) (l : List Char), l.length ≤ f1 → l.length ≤ f2 →
      stripDupFuel f1 l = stripDupFuel f2 l := by
  intro f1
  induction f1 with
  | zero =>
      intro f2 l h1 _
      have hl : l = [] := List.eq_nil_of_length_eq_zero (Nat.le_zero.mp h1)
      subst hl
      cases f2 with
      | zero => rfl
      | succ g2 => rfl
  | succ g1 ih =>
      intro f2 l h1 h2
      cases l with
      | nil =>
          cases f2 with
          | zero => rfl
          | succ g2 => rfl
      | cons c cs =>
          cases f2 with
          | zero => simp at h2
          | succ g2 =>
              simp only [stripDupFuel]
              cases hm : matchAt (c :: cs) with
              | some tail =>
                  have hlt := matchAt_length hm
                  simp only [List.length_cons] at h1 h2 hlt
                  exact ih g2 tail (by omega) (by omega)
              | none =>
                  simp only [List.length_cons] at h1 h2
                  rw [ih g2 cs (by omega) (by omega)]

/-- On a list with no occurrence of the pattern, the `re.sub` scan is the
identity, whatever the fuel. -/
theorem stripDupFuel_of_not_hasMatch :
    ∀ (fuel : Nat) (l : List Char), hasMatch l = false → stripDupFuel fuel l = l := by
  intro fuel
  induction fuel with
  | zero =>
      intro l _
      cases l with
      | nil => rfl
      | cons c cs => rfl
  | succ g ih =>
      intro l h
      match l with
      | [] => rfl
      | c :: cs =>
          simp only [hasMatch, Bool.or_eq_false_iff] at h
          cases hm : matchAt (c :: cs) with
          | some tail => rw [hm] at h; simp at h
          | none =>
              simp only [stripDupFuel, hm]
              rw [ih cs h.2]

/-- `stripDup` is the identity on lists with no occurrence of the
pattern. -/
theorem stripDup_of_not_hasMatch (l : List Char) (h : hasMatch l = false) :
    stripDup l = l :=
  stripDupFuel_of_not_hasMatch l.length l h

/-- The `re.sub` scan never lengthens its input. -/
theorem stripDupFuel_length_le :
    ∀ (fuel : Nat) (l : List Char), (stripDupFuel fuel l).length ≤ l.length := by
  intro fuel
  induction fuel with
  | zero =>
      intro l
      cases l with
      | nil => exact Nat.le_refl _
      | cons c cs => exact Nat.le_refl _
  | succ g ih =>
      intro l
      cases l with
      | nil => exact Nat.zero_le _
      | cons c cs =>
          simp only [stripDupFuel]
          cases hm : matchAt (c :: cs) with
          | some tail =>
              have h1 := ih tail
              have h2 := matchAt_length hm
              simp only [List.length_cons] at h2 ⊢
              omega
          | none =>
              have h1 := ih cs
              simp only [List.length_cons]
              omega

/-- On a list that still contains an occurrence of the pattern, the
`re.sub` scan removes at least one character (given enough fuel). -/
theorem stripDupFuel_length_lt :
    ∀ (fuel : Nat) (l : List Char), l.length ≤ fuel → hasMatch l = true →
      (stripDupFuel fuel l).length < l.length := by
  intro fuel
  induction fuel with
  | zero =>
      intro l h1 h2
      have hl : l = [] := List.eq_nil_of_length_eq_zero (Nat.le_zero.mp h1)
      subst hl
      simp [hasMatch] at h2
  | succ g ih =>
      intro l h1 h2
      cases l with
      | nil => simp [hasMatch] at h2
      | cons c cs =>
          simp only [stripDupFuel]
          cases hm : matchAt (c :: cs) with
          | some tail =>
              have ha := stripDupFuel_length_le g tail
              have hb := matchAt_length hm
              simp only [List.length_cons] at hb ⊢
              omega
          | none =>
              have hcs : hasMatch cs = true := by
                simp only [hasMatch, hm, Option.isSome_none, Bool.false_or] at h2
                exact h2
              simp only [List.length_cons] at h1 ⊢
              have := ih cs (by omega) hcs
              omega

/-- On a list that still contains an occurrence of the pattern,
`stripDup` strictly changes it. -/
theorem stripDup_ne_of_hasMatch (l : List Char) (h : hasMatch l = true) :
    stripDup l ≠ l := by
  intro he
  have hlt : (stripDup l).length < l.length :=
    stripDupFuel_length_lt l.length l (Nat.le_refl _) h
  rw [he] at hlt
  exact absurd hlt (Nat.lt_irrefl _)

end DT

namespace DT

/-- `pyFind` misses a character that is not in the list (Python `find`
returns `-1`). -/
theorem pyFind_of_not_mem {c : Char} :
    ∀ {l : List Char}, c ∉ l → pyFind c l = none := by
  intro l
  induction l with
  | nil => intro _; rfl
  | cons x xs ih =>
      intro h
      have hx : ¬x = c := fun hxc => h (hxc ▸ List.mem_cons_self x xs)
      have hxs : c ∉ xs := fun hm => h (List.mem_cons_of_mem x hm)
      simp only [pyFind, if_neg hx, ih hxs, Option.map_none']

/-- `pyFind` locates the first occurrence of a character. -/
theorem pyFind_append {c : Char} :
    ∀ (l1 l2 : List Char), c ∉ l1 → pyFind c (l1 ++ c :: l2) = some l1.length := by
  intro l1
  induction l1 with
  | nil => intro l2 _; simp [pyFind]
  | cons x xs ih =>
      intro l2 h
      have hx : ¬x = c := fun hxc => h (hxc ▸ List.mem_cons_self x xs)
      have hxs : c ∉ xs := fun hm => h (List.mem_cons_of_mem x hm)
      rw [List.cons_append]
      simp only [pyFind, if_neg hx]
      rw [ih l2 hxs]
      rfl

/-- Taking the length of the left part of an append returns it. -/
theorem take_len_append : ∀ (l1 l2 : List Char), (l1 ++ l2).take l1.length = l1 := by
  intro l1
  induction l1 with
  | nil => intro l2; rfl
  | cons x xs ih => intro l2; simp [List.take_succ_cons, ih]

/-- Dropping the length of the left part of an append returns the right
part. -/
theorem drop_len_append : ∀ (l1 l2 : List Char), (l1 ++ l2).drop l1.length = l2 := by
  intro l1
  induction l1 with
  | nil => intro l2; rfl
  | cons x xs ih => intro l2; simp [List.drop_succ_cons, ih]

/-- Every position value emitted from counter state `i` exceeds `i`. -/
theorem specPositions_gt :
    ∀ (es : List TracklistEntry) (i x : Nat), x ∈ specPositions i es → i < x := by
  intro es
  induction es with
  | nil => intro i x h; simp [specPositions] at h
  | cons t ts ih =>
      intro i x h
      by_cases hp : isPseudo t
      · rw [specPositions, if_pos hp] at h
        exact Nat.lt_of_succ_lt (ih (i + 1) x h)
      · rw [specPositions, if_neg hp] at h
        rcases List.mem_cons.mp h with h1 | h2
        · omega
        · exact Nat.lt_of_succ_lt (ih (i + 1) x h2)

/-- The emitted position values are strictly increasing. -/
theorem specPositions_chain :
    ∀ (es : List TracklistEntry) (i : Nat),
      List.Chain' (fun a b => a < b) (specPositions i es) := by
  intro es
  induction es with
  | nil => intro i; simp [specPositions]
  | cons t ts ih =>
      intro i
      by_cases hp : isPseudo t
      · rw [specPositions, if_pos hp]
        exact ih (i + 1)
      · rw [specPositions, if_neg hp]
        refine List.chain'_cons'.mpr ⟨?_, ih (i + 1)⟩
        intro y hy
        exact specPositions_gt ts (i + 1) y (List.mem_of_mem_head? hy)

/-- Unfolding of the `discs_and_tracks` loop on a successful run: the
emitted titles are those of the surviving (non-pseudo) entries in order,
and the emitted position values are the enumerate indices plus one. -/
theorem datLoop_shape (r : Release) :
    ∀ (es : List TracklistEntry) (dsub : Option String) (i : Nat) (l : List Track),
      datLoop r dsub i es = .ok l →
      l.map Track.title = (es.filter fun t => !isPseudo t).map TracklistEntry.title ∧
      l.map Track.position = specPositions i es := by
  intro es
  induction es with
  | nil =>
      intro dsub i l h
      simp only [datLoop, Except.ok.injEq] at h
      subst h
      simp [specPositions]
  | cons t ts ih =>
      intro dsub i l h
      simp only [datLoop] at h
      split at h
      · simp at h
      · split at h
        next hp =>
          obtain ⟨h1, h2⟩ := ih (some t.title) (i + 1) l h
          constructor
          · rw [List.filter_cons_of_neg (by simp [hp])]
            exact h1
          · rw [specPositions, if_pos hp]
            exact h2
        next hp =>
          split at h
          · simp at h
          next tn dn hpt =>
            split at h
            · simp at h
            next l2 hrec =>
              simp only [Except.ok.injEq] at h
              subst h
              obtain ⟨h1, h2⟩ := ih dsub (i + 1) l2 hrec
              constructor
              · rw [List.filter_cons_of_pos (by simp [hp])]
                simp only [List.map_cons, h1]
              · rw [specPositions, if_neg hp]
                simp only [List.map_cons, h2]

/-- Unfolding of the `discs_and_tracks` loop on a successful run: each
emitted track carries the pending disc subtitle in force when it was
built — the title of the latest pseudo-subtitle entry before it (or the
inherited pending value), never cleared by a disc change. -/
theorem datLoop_subs (r : Release) :
    ∀ (es : List TracklistEntry) (dsub : Option String) (i : Nat) (l : List Track),
      datLoop r dsub i es = .ok l →
      l.map Track.discsubtitle = specSubs dsub es := by
  intro es
  induction es with
  | nil =>
      intro dsub i l h
      simp only [datLoop, Except.ok.injEq] at h
      subst h
      simp [specSubs]
  | cons t ts ih =>
      intro dsub i l h
      simp only [datLoop] at h
      split at h
      · simp at h
      · split at h
        next hp =>
          rw [specSubs, if_pos hp]
          exact ih (some t.title) (i + 1) l h
        next hp =>
          split at h
          · simp at h
          next tn dn hpt =>
            split at h
            · simp at h
            next l2 hrec =>
              simp only [Except.ok.injEq] at h
              subst h
              rw [specSubs, if_neg hp]
              simp only [List.map_cons, ih dsub (i + 1) l2 hrec]

/-- The `tracks` loop can only return `ok` with the empty list: every
non-pseudo entry it reaches ends in an exception. -/
theorem tracksLoop_ok (r : Release) :
    ∀ (es : List TracklistEntry) (dsub : Option String) (i : Nat)
      (l : List TrackContainer),
      tracksLoop r dsub i es = .ok l → l = [] := by
  intro es
  induction es with
  | nil =>
      intro dsub i l h
      simp only [tracksLoop, Except.ok.injEq] at h
      exact h.symm
  | cons t ts ih =>
      intro dsub i l h
      simp only [tracksLoop] at h
      split at h
      · simp at h
      · split at h
        next hp => exact ih (some t.title) (i + 1) l h
        next hp =>
          split at h
          · simp at h
          · simp at h

/-- The `tracks` loop raises an exception whenever some entry in front
of it is a real (non-pseudo) track. -/
theorem tracksLoop_err (r : Release) :
    ∀ (es : List TracklistEntry), (∃ t ∈ es, isPseudo t = false) →
      ∀ (dsub : Option String) (i : Nat),
        (tracksLoop r dsub i es).toOption = none := by
  intro es
  induction es with
  | nil => intro h; exact absurd h (by simp)
  | cons t ts ih =>
      intro h dsub i
      cases hres : tracksLoop r dsub i (t :: ts) with
      | error e => rfl
      | ok l =>
          exfalso
          have hl : l = [] := tracksLoop_ok r (t :: ts) dsub i l hres
          subst hl
          simp only [tracksLoop] at hres
          split at hres
          next ha => simp at hres
          next a as ha =>
            split at hres
            next hp =>
                have hts : ∃ u ∈ ts, isPseudo u = false := by
                  rcases h with ⟨u, hu, hfu⟩
                  rcases List.mem_cons.mp hu with h1 | h2
                  · exact absurd hfu (by rw [h1, hp]; simp)
                  · exact ⟨u, h2, hfu⟩
                have := ih hts (some t.title) (i + 1)
                rw [hres] at this
                simp [Except.toOption] at this
            next hp =>
                split at hres
                · simp at hres
                · simp at hres

end DT

/-! ## Claims -/

namespace DT

/-- Claim C1, counterexample: on a tracklist consisting of a
pseudo-subtitle entry followed by one real track, the emitted sequence
is `[position 2]`, not `[position 1]` — the pseudo entry consumed an
enumerate counter value, so positions are neither the 1-based index
among the remaining entries nor contiguous from 1. -/
theorem C1_counterexample :
    (discs_and_tracks relC1).map (fun l => l.map Track.position) = .ok [2] ∧
    (discs_and_tracks relC1).map (fun l => l.map Track.position) ≠ .ok [1] := by
  decide

/-- Claim C1 as amended: on every successful run, the emitted Track
sequence preserves catalog order over the type-filtered, non-pseudo
entries (witnessed on titles), each Track's position is one plus its
enumerate index among the type-filtered entries including pseudo-subtitle
entries (each pseudo entry consumes a counter value), and the position
values are strictly increasing — but not necessarily contiguous. -/
theorem C1_amended (r : Release) (l : List Track)
    (h : discs_and_tracks r = .ok l) :
    l.map Track.title
      = ((filteredEntries r).filter fun t => !isPseudo t).map TracklistEntry.title ∧
    l.map Track.position = specPositions 0 (filteredEntries r) ∧
    List.Chain' (fun a b => a < b) (l.map Track.position) := by
  obtain ⟨h1, h2⟩ := datLoop_shape r (filteredEntries r) none 0 l h
  refine ⟨h1, h2, ?_⟩
  rw [h2]
  exact specPositions_chain (filteredEntries r) 0

/-- Claim C1, witness: the amended statement applied to the concrete
snapshot `relC1` and its emitted sequence `[trC1]`. -/
theorem C1_witness :
    [trC1].map Track.title
      = ((filteredEntries relC1).filter fun t => !isPseudo t).map TracklistEntry.title ∧
    [trC1].map Track.position = specPositions 0 (filteredEntries relC1) ∧
    List.Chain' (fun a b => a < b) ([trC1].map Track.position) :=
  C1_amended relC1 [trC1] (by decide)

/-- Claim C2, counterexample: `relC2` has a real (non-pseudo) `"Track"`
entry, yet evaluating `tracks` raises `ValueError` (from
`int("A1")`), not `AttributeError` — the claimed error kind is not
universal. -/
theorem C2_counterexample :
    tracks relC2 = .error .valueError ∧
    tracks relC2 ≠ .error .attributeError ∧
    (∃ t ∈ filteredEntries relC2, isPseudo t = false) := by
  decide

/-- Claim C2 as amended: whenever the tracklist contains at least one
type-`"Track"` entry that is not a pseudo-subtitle entry, `tracks` never
returns a value (it raises some exception — `AttributeError` at the
uninitialized `self.discs` store on the well-formed path, or an earlier
parsing exception), and `tracktotal_on_disc` itself always raises
`AttributeError`, so it can never observe a populated per-disc table. -/
theorem C2_amended (r : Release)
    (h : ∃ t ∈ filteredEntries r, isPseudo t = false) :
    (tracks r).toOption = none ∧
    ∀ d : Int, tracktotal_on_disc r d = .error .attributeError :=
  ⟨tracksLoop_err r (filteredEntries r) h none 0, fun _ => rfl⟩

/-- Claim C2, witness: the amended statement applied to the well-formed
single-track snapshot `relC2w`. -/
theorem C2_witness :
    (tracks relC2w).toOption = none ∧
    tracktotal_on_disc relC2w 1 = .error .attributeError :=
  ⟨(C2_amended relC2w (by decide)).1, (C2_amended relC2w (by decide)).2 1⟩

/-- Claim C3: on a track with an empty per-track credited-artist list
the code is meant to fall back to the release-level artist, but the
fallback reads `self.artist`, a property that exists only as a comment,
so `tracks` raises `AttributeError` instead of falling back. -/
theorem C3_theorem : tracks relC3 = .error .attributeError := by
  decide

/-- Claim C4: `year` is not total — a year field with no 4-digit run
makes `.match` return `None` and `None.group(0)` raises
`AttributeError` (the `except IndexError` clause never fires), and an
absent year field raises `KeyError`; the sentinel `"1900"` is
unreachable on these paths. -/
theorem C4_theorem :
    year relC4a = .error .attributeError ∧ year relC4b = .error .keyError := by
  decide

/-- Claim C5, counterexample: on the delimiter-free token `"12"` the
parser does not treat the whole token as the track number: the split
index defaults to 0, so the track substring is `"2"` (the first
character is dropped) and the disc substring is empty. -/
theorem C5_counterexample :
    (disc_and_track_no "12").tracknumber = "2" ∧
    (disc_and_track_no "12").discnumber = "" ∧
    ("2" : String) ≠ "12" := by
  decide

/-- Claim C5 as amended: the parser splits at the first `'-'`, else at
the first `'.'`, with everything before the split point the disc
substring and everything after it the track substring; when neither
delimiter is present the split index is 0, so the disc substring is
empty and the track substring is the token without its first character
(not the whole token; no disc default is applied by the parser). -/
theorem C5_amended (l1 l2 : List Char) :
    ('-' ∉ l1 →
      disc_and_track_no ⟨l1 ++ '-' :: l2⟩ = ⟨⟨l2⟩, ⟨l1⟩⟩) ∧
    ('-' ∉ l1 ∧ '-' ∉ l2 ∧ '.' ∉ l1 →
      disc_and_track_no ⟨l1 ++ '.' :: l2⟩ = ⟨⟨l2⟩, ⟨l1⟩⟩) ∧
    ('-' ∉ l1 ∧ '.' ∉ l1 →
      disc_and_track_no ⟨l1⟩ = ⟨⟨l1.drop 1⟩, ⟨[]⟩⟩) := by
  have hdrop : ∀ (c : Char) (t : List Char), (l1 ++ c :: t).drop (l1.length + 1) = t := by
    intro c t
    have h := drop_len_append (l1 ++ [c]) t
    simp only [List.append_assoc, List.singleton_append, List.length_append,
      List.length_singleton] at h
    exact h
  have htake : ∀ (c : Char) (t : List Char), (l1 ++ c :: t).take l1.length = l1 :=
    fun c t => take_len_append l1 (c :: t)
  refine ⟨?_, ?_, ?_⟩
  · intro h1
    simp only [disc_and_track_no]
    rw [pyFind_append l1 l2 h1]
    show ({ tracknumber := ⟨(l1 ++ '-' :: l2).drop (l1.length + 1)⟩,
            discnumber := ⟨(l1 ++ '-' :: l2).take l1.length⟩ } : PosParts)
        = ⟨⟨l2⟩, ⟨l1⟩⟩
    rw [hdrop, htake]
  · rintro ⟨h1, h2, h3⟩
    have hne : ('-' : Char) ∉ l1 ++ '.' :: l2 := by
      intro hm
      rcases List.mem_append.mp hm with hA | hB
      · exact h1 hA
      · rcases List.mem_cons.mp hB with hC | hD
        · exact absurd hC (by decide)
        · exact h2 hD
    simp only [disc_and_track_no]
    rw [pyFind_of_not_mem hne, pyFind_append l1 l2 h3]
    show ({ tracknumber := ⟨(l1 ++ '.' :: l2).drop (l1.length + 1)⟩,
            discnumber := ⟨(l1 ++ '.' :: l2).take l1.length⟩ } : PosParts)
        = ⟨⟨l2⟩, ⟨l1⟩⟩
    rw [hdrop, htake]
  · rintro ⟨h1, h2⟩
    simp only [disc_and_track_no]
    rw [pyFind_of_not_mem h1, pyFind_of_not_mem h2]
    rfl

/-- Claim C5, witness: the amended statement applied at the tokens
`"1-2"`, `"3.04"` and `"12"`. -/
theorem C5_witness :
    disc_and_track_no ⟨['1'] ++ '-' :: ['2']⟩ = ⟨⟨['2']⟩, ⟨['1']⟩⟩ ∧
    disc_and_track_no ⟨['3'] ++ '.' :: ['0', '4']⟩ = ⟨⟨['0', '4']⟩, ⟨['3']⟩⟩ ∧
    disc_and_track_no ⟨['1', '2']⟩ = ⟨⟨['1', '2'].drop 1⟩, ⟨[]⟩⟩ :=
  ⟨(C5_amended ['1'] ['2']).1 (by decide),
   (C5_amended ['3'] ['0', '4']).2.1 (by decide),
   (C5_amended ['1', '2'] []).2.2 (by decide)⟩

/-- Claim C6, counterexample: `stripDuplicateSuffix` is not idempotent.
On `" ( (1)1)"` the first application removes the inner `" (1)"` and the
leftovers reassemble into the fresh match `" (1)"`, which a second
application also removes, so `f(f(x)) = "" ≠ " (1)" = f(x)`. -/
theorem C6_counterexample :
    clean_duplicate_handling " ( (1)1)" = " (1)" ∧
    clean_duplicate_handling " (1)" = "" ∧
    clean_duplicate_handling (clean_duplicate_handling " ( (1)1)")
      ≠ clean_duplicate_handling " ( (1)1)" := by
  decide

/-- Claim C6 as amended: `stripDuplicateSuffix` is idempotent exactly on
the inputs whose output contains no further occurrence of the pattern
`\s\(\d+\)` — if the output contains no match a second application is
the identity on it, and if it still contains a match (removal can
reassemble one) a second application strictly strips further, so
`f(f(x)) ≠ f(x)`. -/
theorem C6_amended (s : String) :
    clean_duplicate_handling (clean_duplicate_handling s)
        = clean_duplicate_handling s
      ↔ hasMatch (clean_duplicate_handling s).data = false := by
  constructor
  · intro heq
    cases hm : hasMatch (clean_duplicate_handling s).data with
    | false => rfl
    | true =>
        exfalso
        have hdata : stripDup (clean_duplicate_handling s).data
            = (clean_duplicate_handling s).data := congrArg String.data heq
        exact stripDup_ne_of_hasMatch _ hm hdata
  · intro h
    show (⟨stripDup (clean_duplicate_handling s).data⟩ : String)
        = clean_duplicate_handling s
    rw [stripDup_of_not_hasMatch _ h]

/-- Claim C6, witness: the biconditional applied at `"John (1)"`, whose
image `"John"` contains no further match. -/
theorem C6_witness :
    clean_duplicate_handling (clean_duplicate_handling "John (1)")
      = clean_duplicate_handling "John (1)" :=
  (C6_amended "John (1)").mpr (by decide)

/-- Claim C7, counterexample: the release-level sort artist is only the
duplicate-suffix strip of the first credited artist's raw name, not
`cleanName` of it: for the first artist `"Aphex Twin, The"` the code
yields `"Aphex Twin, The"` while `cleanName` would yield
`"The Aphex Twin"`. -/
theorem C7_counterexample :
    sort_artist [⟨"Aphex Twin, The"⟩] = .ok "Aphex Twin, The" ∧
    clean_name "Aphex Twin, The" = "The Aphex Twin" ∧
    ("Aphex Twin, The" : String) ≠ "The Aphex Twin" := by
  decide

/-- Claim C7 as amended: `sort_artist` applies only
`clean_duplicate_handling` (`stripDuplicateSuffix`) to the first
credited artist's raw name — never the `", The"` rewrite — so any first
artist whose name contains no duplicate-suffix pattern (in particular
one of the shape `"<X>, The"`) passes through unchanged. -/
theorem C7_amended (a : Artist) (rest : List Artist) :
    sort_artist (a :: rest) = .ok (clean_duplicate_handling a.name) ∧
    (hasMatch a.name.data = false → sort_artist (a :: rest) = .ok a.name) := by
  refine ⟨rfl, fun h => ?_⟩
  have hid : clean_duplicate_handling a.name = a.name := by
    show (⟨stripDup a.name.data⟩ : String) = a.name
    rw [stripDup_of_not_hasMatch _ h]
  show Except.ok (clean_duplicate_handling a.name) = Except.ok a.name
  rw [hid]

/-- Claim C7, witness: the amended statement applied to the first
artist `"Aphex Twin, The"`, whose raw name carries no duplicate
suffix. -/
theorem C7_witness :
    sort_artist [⟨"Aphex Twin, The"⟩]
      = .ok (clean_duplicate_handling (Artist.mk "Aphex Twin, The").name) ∧
    sort_artist [⟨"Aphex Twin, The"⟩] = .ok (Artist.mk "Aphex Twin, The").name :=
  ⟨(C7_amended ⟨"Aphex Twin, The"⟩ []).1,
   (C7_amended ⟨"Aphex Twin, The"⟩ []).2 (by decide)⟩

/-- Claim C8, counterexample: on the two-disc snapshot `relC8` the
pseudo-subtitle `"Disc One"` is still assigned to the track on disc 2 —
the disc number changing from 1 to 2 does not stop the carry-forward,
contrary to the claim's "or the disc number changes" clause. -/
theorem C8_counterexample :
    (discs_and_tracks relC8).map
        (fun l => l.map fun t => (t.discnumber, t.discsubtitle))
      = .ok [(1, some "Disc One"), (2, some "Disc One")] := by
  decide

/-- Claim C8 as amended: once a pseudo-subtitle entry has been seen its
title is assigned as discSubtitle to every subsequently emitted track
until a new pseudo-subtitle entry replaces it — including tracks on
later discs, a disc-number change never clears it — and tracks emitted
before any pseudo-subtitle entry carry no discSubtitle. -/
theorem C8_amended (r : Release) (l : List Track)
    (h : discs_and_tracks r = .ok l) :
    l.map Track.discsubtitle = specSubs none (filteredEntries r) :=
  datLoop_subs r (filteredEntries r) none 0 l h

/-- Claim C8, witness: the amended statement applied to `relC8` and its
emitted sequence `[trC8a, trC8b]`. -/
theorem C8_witness :
    [trC8a, trC8b].map Track.discsubtitle = specSubs none (filteredEntries relC8) :=
  C8_amended relC8 [trC8a, trC8b] (by decide)

/-- A format contributes to `is_compilation` exactly when its
descriptions list is present and contains `"compilation"`. -/
theorem fmt_comp_iff (f : Format) :
    ((match f.descriptions with
      | some ds => ds.any (fun d => d == "compilation")
      | none => false) = true) ↔
      ∃ ds, f.descriptions = some ds ∧ "compilation" ∈ ds := by
  cases hd : f.descriptions with
  | none => simp
  | some ds => simp [List.any_eq_true]

/-- Claim C9: `is_compilation` returns true exactly when the first raw
credited artist name is the literal `"Various"` or some declared format
carries a descriptor equal to `"compilation"`; there is no partial
match, so `"Various Artists"` alone does not qualify. -/
theorem C9_theorem (r : Release) (a : Artist) (rest : List Artist)
    (h : r.data.artists = a :: rest) :
    is_compilation r = .ok true ↔
      (a.name = "Various" ∨
       ∃ f ∈ r.data.formats, ∃ ds, f.descriptions = some ds ∧ "compilation" ∈ ds) := by
  have he : is_compilation r
      = (if a.name = "Various" then Except.ok true
         else Except.ok (r.data.formats.any fun f =>
           match f.descriptions with
           | some ds => ds.any (fun d => d == "compilation")
           | none => false)) := by
    unfold is_compilation
    rw [h]
  rw [he]
  by_cases hv : a.name = "Various"
  · simp [hv]
  · rw [if_neg hv]
    simp only [hv, false_or, Except.ok.injEq, List.any_eq_true, fmt_comp_iff]

/-- Claim C9, witness: the characterization applied to the
`"Various Artists"` snapshot `relC9` (whose right-hand side is false, so
`is_compilation` is not true there). -/
theorem C9_witness :
    is_compilation relC9 = .ok true ↔
      ((Artist.mk "Various Artists").name = "Various" ∨
       ∃ f ∈ relC9.data.formats, ∃ ds, f.descriptions = some ds ∧ "compilation" ∈ ds) :=
  C9_theorem relC9 ⟨"Various Artists"⟩ [] rfl

/-- Claim C10, counterexample: `disctotal` is the unvalidated integer
parse of the first format's quantity field, so the catalog value `"0"`
yields `discTotal = 0`, violating `discTotal ≥ 1`. -/
theorem C10_counterexample :
    disctotal relC10 = .ok 0 ∧ ¬(1 ≤ (0 : Int)) := by
  decide

/-- Claim C10 as amended: the per-track bound `discnumber ∈ [1,
discTotal]` holds only vacuously for the `tracks` property, because a
successful run of `tracks` always returns the empty list (every real
entry raises before being appended); and `discTotal ≥ 1` is not
enforced anywhere (see the counterexample). -/
theorem C10_amended (r : Release) (l : List TrackContainer)
    (h : tracks r = .ok l) :
    tracks r = .ok ([] : List TrackContainer) ∧ l = [] := by
  have hl : l = [] := tracksLoop_ok r (filteredEntries r) none 0 l h
  subst hl
  exact ⟨h, rfl⟩

/-- Claim C10, witness: the amended statement applied to the
pseudo-subtitle-only snapshot `relC10w`, on which `tracks` does return
(the empty list). -/
theorem C10_witness : tracks relC10w = .ok ([] : List TrackContainer) :=
  (C10_amended relC10w [] (by decide)).1

end DT
